import Mathlib

set_option maxRecDepth 4000

/-!
Verification of the scheduling / move-offer subsystem of the perlflow
dental-assistant backend, as a shallow embedding of the Python source.

Monetary values and LTV scores (Python floats used only through `+`, `-`,
`*`, `/`, comparisons and `int(...)`) are modelled as rationals; day counts
and scores (Python ints) as integers; instants as minute counts.
-/

/-- Python `int(x)` applied to a float/rational: truncation toward zero. -/
def pyInt (q : ℚ) : ℤ := if 0 ≤ q then q.floor else q.ceil

/-- Python `min(a, b)` on integers. -/
def pyMin (a b : ℤ) : ℤ := if a ≤ b then a else b

/-- Python `max(a, b)` on integers. -/
def pyMax (a b : ℤ) : ℤ := if a ≥ b then a else b

/-- `calculate_move_score_heuristic` (routes/heuristics.py, lines 57-99):
returns `(move_score, recommendation, incentive)`. -/
def calculateMoveScoreHeuristic (currentValue newValue patientLtv : ℚ)
    (daysUntilAppointment : ℤ) : ℤ × String × String :=
  let revenueDiff := newValue - currentValue
  let revenueScore := pyMin 80 (pyMax 0 (pyInt (revenueDiff / 10)))
  let ltvPenalty := pyMin 40 (pyInt (patientLtv / 50))
  let timingBonus := pyMin 20 (daysUntilAppointment * 2)
  let moveScore := revenueScore - ltvPenalty + timingBonus + 30
  let moveScore := pyMax 0 (pyMin 100 moveScore)
  if moveScore > 85 then (moveScore, "MOVE", "5% discount")
  else if moveScore > 70 then (moveScore, "MOVE", "10% discount")
  else if moveScore ≥ 50 then (moveScore, "CONSIDER", "15% discount or priority slot")
  else (moveScore, "KEEP", "No incentive needed")

/-- The database-backed scoring branch of `heuristic_move_check`
(tools/heuristics.py, lines 96-138), as a pure function of the fetched
appointment value, patient LTV and the raw signed day difference
`(appointment.start_time - now).days`; returns
`(move_score, recommendation, incentive, revenue_difference)`. -/
def heuristicMoveCheckCore (currentValue newValue patientLtv : ℚ)
    (daysUntilRaw : ℤ) : ℤ × String × String × ℚ :=
  let revenueDiff := newValue - currentValue
  let revenueScore := pyMin 80 (pyMax 0 (pyInt (revenueDiff / 10)))
  let ltvPenalty := pyMin 40 (pyInt (patientLtv / 50))
  let daysUntilAppointment := pyMax 0 daysUntilRaw
  let timingBonus := pyMin 20 (daysUntilAppointment * 2)
  let moveScore := pyMax 0 (pyMin 100 (revenueScore - ltvPenalty + timingBonus + 30))
  if moveScore > 70 then
    if moveScore > 85 then (moveScore, "MOVE", "5% discount", revenueDiff)
    else if moveScore > 80 then (moveScore, "MOVE", "10% discount", revenueDiff)
    else (moveScore, "MOVE", "15% discount or priority slot", revenueDiff)
  else if moveScore ≥ 50 then
    (moveScore, "CONSIDER", "15% discount or priority slot", revenueDiff)
  else (moveScore, "KEEP", "No incentive needed", revenueDiff)

/-- C2: the two move-score boundary evaluations of the spec, checked against
both implementations: `(150, 1200, 0, 0)` scores 100 / MOVE / "5% discount",
and `(1200, 150, 500, 0)` scores 20 / KEEP / "No incentive needed". -/
theorem moveScore_boundary_values :
    calculateMoveScoreHeuristic 150 1200 0 0 = (100, "MOVE", "5% discount") ∧
    calculateMoveScoreHeuristic 1200 150 500 0 = (20, "KEEP", "No incentive needed") ∧
    heuristicMoveCheckCore 150 1200 0 0 = (100, "MOVE", "5% discount", 1050) ∧
    heuristicMoveCheckCore 1200 150 500 0 = (20, "KEEP", "No incentive needed", -1050) := by
  refine ⟨?_, ?_, ?_, ?_⟩ <;> with_unfolding_all decide

/-- On nonnegative input, Python `max(0, d)` is the identity. -/
theorem pyMax_zero_of_nonneg (d : ℤ) (h : 0 ≤ d) : pyMax 0 d = d := by
  unfold pyMax; split_ifs <;> omega

/-- C3 counterexample: on input `(0, 450, 0, 0)` the tools implementation of
the move score computes score 75 — inside the band `70 < s ≤ 85` — yet
returns incentive "15% discount or priority slot", not "10% discount". -/
theorem incentiveMiddleBand_counterexample :
    heuristicMoveCheckCore 0 450 0 0 = (75, "MOVE", "15% discount or priority slot", 450) ∧
    (70 : ℤ) < 75 ∧ (75 : ℤ) ≤ 85 ∧
    ("15% discount or priority slot" ≠ "10% discount") := by
  refine ⟨?_, by decide, by decide, by decide⟩
  with_unfolding_all decide

/-- C3 amended: in `calculate_move_score_heuristic` (routes/heuristics.py) a
score in `(70, 85]` yields MOVE with "10% discount"; in `heuristic_move_check`
(tools/heuristics.py) only a score in `(80, 85]` yields "10% discount", while
a score in `(70, 80]` yields MOVE with "15% discount or priority slot". -/
theorem incentiveMiddleBand_amended (cur new ltv : ℚ) (days : ℤ) :
    (70 < (calculateMoveScoreHeuristic cur new ltv days).1 →
      (calculateMoveScoreHeuristic cur new ltv days).1 ≤ 85 →
      (calculateMoveScoreHeuristic cur new ltv days).2 = ("MOVE", "10% discount")) ∧
    (80 < (heuristicMoveCheckCore cur new ltv days).1 →
      (heuristicMoveCheckCore cur new ltv days).1 ≤ 85 →
      (heuristicMoveCheckCore cur new ltv days).2.1 = "MOVE" ∧
      (heuristicMoveCheckCore cur new ltv days).2.2.1 = "10% discount") ∧
    (70 < (heuristicMoveCheckCore cur new ltv days).1 →
      (heuristicMoveCheckCore cur new ltv days).1 ≤ 80 →
      (heuristicMoveCheckCore cur new ltv days).2.1 = "MOVE" ∧
      (heuristicMoveCheckCore cur new ltv days).2.2.1 = "15% discount or priority slot") := by
  refine ⟨?_, ?_, ?_⟩ <;>
    · simp only [calculateMoveScoreHeuristic, heuristicMoveCheckCore]
      split_ifs <;> simp <;> omega

/-- Witness for `incentiveMiddleBand_amended` at concrete scores 75 and 82. -/
theorem incentiveMiddleBand_amended_witness :
    (calculateMoveScoreHeuristic 0 450 0 0).2 = ("MOVE", "10% discount") ∧
    ((heuristicMoveCheckCore 0 520 0 0).2.1 = "MOVE" ∧
      (heuristicMoveCheckCore 0 520 0 0).2.2.1 = "10% discount") ∧
    ((heuristicMoveCheckCore 0 450 0 0).2.1 = "MOVE" ∧
      (heuristicMoveCheckCore 0 450 0 0).2.2.1 = "15% discount or priority slot") :=
  ⟨(incentiveMiddleBand_amended 0 450 0 0).1
      (by with_unfolding_all decide) (by with_unfolding_all decide),
    (incentiveMiddleBand_amended 0 520 0 0).2.1
      (by with_unfolding_all decide) (by with_unfolding_all decide),
    (incentiveMiddleBand_amended 0 450 0 0).2.2
      (by with_unfolding_all decide) (by with_unfolding_all decide)⟩

/-- C10 counterexample: on input `(0, 450, 0, 0)` (score 75 in both), the
routes implementation answers "10% discount" while the tools implementation
answers "15% discount or priority slot": the triples differ. -/
theorem implementationsAgree_counterexample :
    calculateMoveScoreHeuristic 0 450 0 0 = (75, "MOVE", "10% discount") ∧
    heuristicMoveCheckCore 0 450 0 0 = (75, "MOVE", "15% discount or priority slot", 450) ∧
    ¬ ((calculateMoveScoreHeuristic 0 450 0 0).2.2 =
        (heuristicMoveCheckCore 0 450 0 0).2.2.1) := by
  refine ⟨?_, ?_, ?_⟩ <;> with_unfolding_all decide

/-- C10 amended: for `days_until_appointment ≥ 0` the two implementations
always agree on the score and the recommendation, and agree on the incentive
exactly outside the band `70 < score ≤ 80`, where routes answers
"10% discount" and tools answers "15% discount or priority slot". -/
theorem implementationsAgree_amended (cur new ltv : ℚ) (days : ℤ) (hd : 0 ≤ days) :
    (calculateMoveScoreHeuristic cur new ltv days).1 =
      (heuristicMoveCheckCore cur new ltv days).1 ∧
    (calculateMoveScoreHeuristic cur new ltv days).2.1 =
      (heuristicMoveCheckCore cur new ltv days).2.1 ∧
    (((calculateMoveScoreHeuristic cur new ltv days).1 ≤ 70 ∨
        80 < (calculateMoveScoreHeuristic cur new ltv days).1) →
      (calculateMoveScoreHeuristic cur new ltv days).2.2 =
        (heuristicMoveCheckCore cur new ltv days).2.2.1) ∧
    ((70 < (calculateMoveScoreHeuristic cur new ltv days).1 ∧
        (calculateMoveScoreHeuristic cur new ltv days).1 ≤ 80) →
      (calculateMoveScoreHeuristic cur new ltv days).2.2 = "10% discount" ∧
      (heuristicMoveCheckCore cur new ltv days).2.2.1 =
        "15% discount or priority slot") := by
  simp only [calculateMoveScoreHeuristic, heuristicMoveCheckCore,
    pyMax_zero_of_nonneg days hd]
  split_ifs <;> simp <;> omega

/-- Witness for `implementationsAgree_amended` at `(0, 450, 0, 0)`. -/
theorem implementationsAgree_amended_witness :
    (calculateMoveScoreHeuristic 0 450 0 0).1 =
      (heuristicMoveCheckCore 0 450 0 0).1 ∧
    (calculateMoveScoreHeuristic 0 450 0 0).2.1 =
      (heuristicMoveCheckCore 0 450 0 0).2.1 ∧
    (((calculateMoveScoreHeuristic 0 450 0 0).1 ≤ 70 ∨
        80 < (calculateMoveScoreHeuristic 0 450 0 0).1) →
      (calculateMoveScoreHeuristic 0 450 0 0).2.2 =
        (heuristicMoveCheckCore 0 450 0 0).2.2.1) ∧
    ((70 < (calculateMoveScoreHeuristic 0 450 0 0).1 ∧
        (calculateMoveScoreHeuristic 0 450 0 0).1 ≤ 80) →
      (calculateMoveScoreHeuristic 0 450 0 0).2.2 = "10% discount" ∧
      (heuristicMoveCheckCore 0 450 0 0).2.2.1 =
        "15% discount or priority slot") :=
  implementationsAgree_amended 0 450 0 0 (by decide)

/-- `MoveOfferStatus` enumeration (models/move_offer.py). -/
inductive MoveOfferStatus where
  | PENDING
  | ACCEPTED
  | DECLINED
  | EXPIRED
deriving DecidableEq, Repr

/-- The columns of a `move_offers` row that the sweep reads or writes
(models/move_offer.py); instants are integer minute counts. -/
structure MoveOffer where
  id : Nat
  status : MoveOfferStatus
  expires_at : Int
  responded_at : Option Int
deriving DecidableEq, Repr

/-- `MoveOfferService.expire_old_offers` (services/move_offer_service.py,
lines 18-49): select the ids of the PENDING offers with
`expires_at < current_time`; if there are none, return 0 without touching the
table; otherwise set status EXPIRED and `responded_at = current_time` on the
rows with those ids and return how many ids were selected.  The result is the
updated table together with the returned count. -/
def expireOldOffers (offers : List MoveOffer) (currentTime : Int) :
    List MoveOffer × Nat :=
  let expiredOfferIds :=
    (offers.filter (fun o =>
      o.status == MoveOfferStatus.PENDING && decide (o.expires_at < currentTime))).map
      (fun o => o.id)
  if expiredOfferIds.isEmpty then (offers, 0)
  else
    (offers.map (fun o =>
      if o.id ∈ expiredOfferIds then
        { o with status := MoveOfferStatus.EXPIRED, responded_at := some currentTime }
      else o),
    expiredOfferIds.length)

/-- Membership in the swept-id selection, under distinctness of row ids. -/
theorem mem_expiredIds_iff (offers : List MoveOffer) (now : Int)
    (hids : (offers.map (fun o => o.id)).Nodup) (o : MoveOffer) (ho : o ∈ offers) :
    (o.id ∈ (offers.filter (fun o =>
        o.status == MoveOfferStatus.PENDING && decide (o.expires_at < now))).map
        (fun o => o.id)) ↔
      (o.status = MoveOfferStatus.PENDING ∧ o.expires_at < now) := by
  constructor
  · intro h
    rcases List.mem_map.1 h with ⟨o', ho', hid⟩
    rcases List.mem_filter.1 ho' with ⟨ho'mem, hpred⟩
    have : o' = o := List.inj_on_of_nodup_map hids ho'mem ho hid
    subst this
    simpa using hpred
  · intro h
    exact List.mem_map.2 ⟨o, List.mem_filter.2 ⟨ho, by simpa using h⟩, rfl⟩

/-- If no pending offer in the table has expired, the sweep returns 0 and
leaves the table unchanged. -/
theorem expireOldOffers_noop (offers : List MoveOffer) (now : Int)
    (h : ∀ o ∈ offers, o.status = MoveOfferStatus.PENDING → ¬ o.expires_at < now) :
    expireOldOffers offers now = (offers, 0) := by
  unfold expireOldOffers
  have hfil : offers.filter (fun o =>
      o.status == MoveOfferStatus.PENDING && decide (o.expires_at < now)) = [] := by
    rw [List.filter_eq_nil_iff]
    intro o ho
    simp only [Bool.and_eq_true, beq_iff_eq, decide_eq_true_eq, not_and]
    exact h o ho
  simp [hfil]

/-- After a sweep at time `now`, no pending offer in the table has
`expires_at < now`. -/
theorem expireOldOffers_post (offers : List MoveOffer) (now : Int) :
    ∀ o ∈ (expireOldOffers offers now).1,
      o.status = MoveOfferStatus.PENDING → ¬ o.expires_at < now := by
  intro o ho
  simp only [expireOldOffers] at ho
  split_ifs at ho with hE
  · intro hpend hlt
    have hmem : o.id ∈ (offers.filter (fun o =>
        o.status == MoveOfferStatus.PENDING && decide (o.expires_at < now))).map
        (fun o => o.id) :=
      List.mem_map.2 ⟨o, List.mem_filter.2 ⟨ho, by simp [hpend, hlt]⟩, rfl⟩
    rw [List.isEmpty_iff] at hE
    rw [hE] at hmem
    simp at hmem
  · rcases List.mem_map.1 ho with ⟨o', ho', rfl⟩
    by_cases hin : o'.id ∈ (offers.filter (fun o =>
        o.status == MoveOfferStatus.PENDING && decide (o.expires_at < now))).map
        (fun o => o.id)
    · simp [hin]
    · rw [if_neg hin]
      intro hpend hlt
      exact hin (List.mem_map.2 ⟨o', List.mem_filter.2 ⟨ho', by simp [hpend, hlt]⟩, rfl⟩)

/-- C4: when row ids are distinct (they are a primary key),
`expire_old_offers` maps exactly the PENDING offers with
`expires_at < now` to EXPIRED with `responded_at = now`, leaves every other
offer — in particular every offer already in a terminal state — unchanged,
and returns the number of offers so transitioned; moreover any later sweep
seeing no newly expired pending offer (in particular an immediate second
sweep at the same instant) returns 0 and alters nothing. -/
theorem sweepExpiredOffers_spec (offers : List MoveOffer) (now : Int)
    (hids : (offers.map (fun o => o.id)).Nodup) :
    expireOldOffers offers now =
      (offers.map (fun o =>
        if o.status = MoveOfferStatus.PENDING ∧ o.expires_at < now then
          { o with status := MoveOfferStatus.EXPIRED, responded_at := some now }
        else o),
      (offers.filter (fun o =>
        o.status == MoveOfferStatus.PENDING && decide (o.expires_at < now))).length) ∧
    (∀ now2 : Int,
      (∀ o ∈ (expireOldOffers offers now).1, o.status = MoveOfferStatus.PENDING →
        ¬ o.expires_at < now2) →
      expireOldOffers (expireOldOffers offers now).1 now2 =
        ((expireOldOffers offers now).1, 0)) ∧
    expireOldOffers (expireOldOffers offers now).1 now =
      ((expireOldOffers offers now).1, 0) := by
  refine ⟨?_, fun now2 h => expireOldOffers_noop _ now2 h,
    expireOldOffers_noop _ now (expireOldOffers_post offers now)⟩
  simp only [expireOldOffers]
  split_ifs with hE
  · rw [List.isEmpty_iff] at hE
    have hfil : offers.filter (fun o =>
        o.status == MoveOfferStatus.PENDING && decide (o.expires_at < now)) = [] := by
      have := congrArg List.length hE
      simp only [List.length_map] at this
      exact List.eq_nil_of_length_eq_zero (by simpa using this)
    have hall := List.filter_eq_nil_iff.1 hfil
    have hmap : offers.map (fun o =>
        if o.status = MoveOfferStatus.PENDING ∧ o.expires_at < now then
          { o with status := MoveOfferStatus.EXPIRED, responded_at := some now }
        else o) = offers := by
      have : ∀ o ∈ offers, (if o.status = MoveOfferStatus.PENDING ∧ o.expires_at < now then
          { o with status := MoveOfferStatus.EXPIRED, responded_at := some now }
        else o) = id o := by
        intro o ho
        have := hall o ho
        rw [if_neg]
        · rfl
        · intro hc
          exact this (by simp [hc.1, hc.2])
      rw [List.map_congr_left this, List.map_id]
    rw [hfil, hmap]
    simp
  · have hmap : offers.map (fun o =>
        if o.id ∈ (offers.filter (fun o =>
            o.status == MoveOfferStatus.PENDING && decide (o.expires_at < now))).map
            (fun o => o.id) then
          { o with status := MoveOfferStatus.EXPIRED, responded_at := some now }
        else o) =
        offers.map (fun o =>
          if o.status = MoveOfferStatus.PENDING ∧ o.expires_at < now then
            { o with status := MoveOfferStatus.EXPIRED, responded_at := some now }
          else o) := by
      refine List.map_congr_left ?_
      intro o ho
      exact if_congr (mem_expiredIds_iff offers now hids o ho) rfl rfl
    rw [hmap]
    simp

/-- Witness for `sweepExpiredOffers_spec`: at time 50, a table with one
overdue pending offer, one live pending offer and one accepted offer; the
sweep expires exactly the overdue one and a second sweep is a no-op. -/
theorem sweepExpiredOffers_spec_witness :
    expireOldOffers ([⟨1, MoveOfferStatus.PENDING, 10, none⟩,
        ⟨2, MoveOfferStatus.PENDING, 100, none⟩,
        ⟨3, MoveOfferStatus.ACCEPTED, 5, some 0⟩] : List MoveOffer) 50 =
      ([⟨1, MoveOfferStatus.EXPIRED, 10, some 50⟩,
        ⟨2, MoveOfferStatus.PENDING, 100, none⟩,
        ⟨3, MoveOfferStatus.ACCEPTED, 5, some 0⟩], 1) ∧
    expireOldOffers ([⟨1, MoveOfferStatus.EXPIRED, 10, some 50⟩,
        ⟨2, MoveOfferStatus.PENDING, 100, none⟩,
        ⟨3, MoveOfferStatus.ACCEPTED, 5, some 0⟩] : List MoveOffer) 50 =
      ([⟨1, MoveOfferStatus.EXPIRED, 10, some 50⟩,
        ⟨2, MoveOfferStatus.PENDING, 100, none⟩,
        ⟨3, MoveOfferStatus.ACCEPTED, 5, some 0⟩], 0) := by
  have h := sweepExpiredOffers_spec ([⟨1, MoveOfferStatus.PENDING, 10, none⟩,
      ⟨2, MoveOfferStatus.PENDING, 100, none⟩,
      ⟨3, MoveOfferStatus.ACCEPTED, 5, some 0⟩] : List MoveOffer) 50 (by decide)
  constructor
  · rw [h.1]
    decide
  · have h2 := h.2.2
    have hfst : (expireOldOffers ([⟨1, MoveOfferStatus.PENDING, 10, none⟩,
        ⟨2, MoveOfferStatus.PENDING, 100, none⟩,
        ⟨3, MoveOfferStatus.ACCEPTED, 5, some 0⟩] : List MoveOffer) 50).1 =
        ([⟨1, MoveOfferStatus.EXPIRED, 10, some 50⟩,
          ⟨2, MoveOfferStatus.PENDING, 100, none⟩,
          ⟨3, MoveOfferStatus.ACCEPTED, 5, some 0⟩] : List MoveOffer) := by
      rw [h.1]
      decide
    rw [hfst] at h2
    exact h2

/-- The mapped column attributes of the `MoveOffer` declarative model
(models/move_offer.py, lines 36-83).  SQLAlchemy's declarative constructor
accepts exactly these keyword names and raises `TypeError` on any other. -/
def moveOfferModelFields : List String :=
  ["id", "original_appointment_id", "target_appointment_id", "incentive_type",
    "incentive_value", "move_score", "status", "offered_at", "expires_at",
    "responded_at"]

/-- The keyword names passed to the `MoveOffer(...)` constructor call inside
`send_move_offer` (tools/offers.py, lines 137-147).  Note the last one. -/
def sendMoveOfferCtorKwargs : List String :=
  ["id", "original_appointment_id", "target_appointment_id", "incentive_type",
    "incentive_value", "move_score", "status", "offered_at", "expiry_at"]

/-- Outcome of a Python call: either an uncaught exception or a value. -/
inductive PyOutcome (α : Type) where
  | raised (exc : String)
  | returned (v : α)
deriving DecidableEq, Repr

/-- The appointment columns `send_move_offer` reads. -/
structure ApptRef where
  id : Nat
  patient_id : Nat
deriving DecidableEq, Repr

/-- A created move-offer row as seen by the claim: status, offered and
expiry instants (minutes), and the referenced appointment. -/
structure CreatedOffer where
  original_appointment_id : Nat
  status : MoveOfferStatus
  offered_at : Int
  expires_at : Int
deriving DecidableEq, Repr

/-- `send_move_offer` (tools/offers.py, lines 97-166) with a database
session: looks up the appointment (returning a `status="ERROR"` result and
creating nothing when it is absent), then the patient, then evaluates the
`MoveOffer(...)` constructor call.  The declarative constructor accepts a
keyword only if it names a mapped attribute, so the call raises `TypeError`
unless every keyword of `sendMoveOfferCtorKwargs` is a member of
`moveOfferModelFields` — only then would a PENDING row expiring 24 hours
(1440 minutes) after `offered_at = now` be inserted and returned.  The
result carries the updated `move_offers` table next to the status string of
the returned dict. -/
def sendMoveOffer (appointments : List ApptRef) (patients : List Nat)
    (offers : List CreatedOffer) (originalAppointmentId : Nat) (now : Int) :
    PyOutcome (String × List CreatedOffer) :=
  match appointments.find? (fun a => a.id == originalAppointmentId) with
  | none => PyOutcome.returned ("ERROR", offers)
  | some appt =>
    if patients.contains appt.patient_id then
      if sendMoveOfferCtorKwargs.all (fun k => moveOfferModelFields.contains k) then
        PyOutcome.returned ("PENDING",
          offers ++ [⟨originalAppointmentId, MoveOfferStatus.PENDING, now, now + 1440⟩])
      else PyOutcome.raised ("TypeError")
    else PyOutcome.returned ("ERROR", offers)

/-- C5: `send_move_offer` never returns the PENDING offer the spec promises.
For an existing appointment (id 7 of patient 3) it raises `TypeError`,
because the constructor keyword `expiry_at` is not a column of the
`MoveOffer` model (the column is `expires_at`); for a missing appointment it
returns an ERROR result and creates no offer. -/
theorem sendMoveOffer_raises_typeError :
    sendMoveOffer [⟨7, 3⟩] [3] [] 7 1000 = PyOutcome.raised ("TypeError") ∧
    ("expiry_at" ∈ sendMoveOfferCtorKwargs ∧ "expiry_at" ∉ moveOfferModelFields) ∧
    sendMoveOffer [⟨7, 3⟩] [3] [] 8 1000 = PyOutcome.returned ("ERROR", []) := by
  refine ⟨by decide, ⟨by decide, by decide⟩, by decide⟩

/-- `AppointmentStatus` enumeration (models/appointment.py, lines 20-27). -/
inductive AppointmentStatus where
  | BOOKED
  | CANCELLED
  | OFFERING_MOVE
  | COMPLETED
  | NO_SHOW
deriving DecidableEq, Repr

/-- The appointment columns the booking conflict check reads
(models/appointment.py); `start_time` is an integer minute instant. -/
structure Appointment where
  id : Nat
  patient_id : Nat
  dentist_id : Nat
  start_time : Int
  duration_mins : Nat
  status : AppointmentStatus
deriving DecidableEq, Repr

/-- The booking failure surfaced as HTTP 409 ("The selected slot is no
longer available"). -/
inductive BookError where
  | slotNoLongerAvailable
deriving DecidableEq, Repr

/-- The conflict-check-and-insert core shared by `create_appointment`
(routes/appointments.py, lines 280-311) and `book_appointment`
(tools/booking.py, lines 161-199), after the session / patient / dentist /
procedure lookups succeeded: the slot is declared taken exactly when some
non-cancelled appointment of the same dentist has an *equal* `start_time`;
otherwise a BOOKED row with the procedure's default duration is inserted. -/
def createAppointment (appointments : List Appointment)
    (newId patientId dentistId : Nat) (startTime : Int) (durationMins : Nat) :
    Except BookError (List Appointment) :=
  let existing := appointments.filter (fun a =>
    a.dentist_id == dentistId && decide (a.start_time = startTime) &&
      !(a.status == AppointmentStatus.CANCELLED))
  if existing.isEmpty then
    Except.ok (appointments ++
      [⟨newId, patientId, dentistId, startTime, durationMins,
        AppointmentStatus.BOOKED⟩])
  else Except.error BookError.slotNoLongerAvailable

/-- The interval-overlap predicate of spec section 4.1 on `[start,
start+duration)` intervals, as used by the availability engine. -/
def intervalsOverlap (s1 : Int) (d1 : Nat) (s2 : Int) (d2 : Nat) : Prop :=
  s1 < s2 + d2 ∧ s2 < s1 + d1

instance (s1 : Int) (d1 : Nat) (s2 : Int) (d2 : Nat) :
    Decidable (intervalsOverlap s1 d1 s2 d2) := by
  unfold intervalsOverlap; infer_instance

/-- The claimed invariant: no two non-cancelled appointments of the same
dentist have intersecting `[start, start+duration)` intervals. -/
def noOverlapInvariant (appointments : List Appointment) : Prop :=
  appointments.Pairwise (fun a b =>
    a.dentist_id = b.dentist_id →
    a.status ≠ AppointmentStatus.CANCELLED →
    b.status ≠ AppointmentStatus.CANCELLED →
    ¬ intervalsOverlap a.start_time a.duration_mins b.start_time b.duration_mins)

/-- What the equality-only conflict check actually preserves: no two
non-cancelled appointments of the same dentist share a start time. -/
def distinctStarts (appointments : List Appointment) : Prop :=
  appointments.Pairwise (fun a b =>
    a.dentist_id = b.dentist_id →
    a.status ≠ AppointmentStatus.CANCELLED →
    b.status ≠ AppointmentStatus.CANCELLED →
    a.start_time ≠ b.start_time)

/-- A booking request as it reaches the conflict check. -/
structure BookRequest where
  newId : Nat
  patient_id : Nat
  dentist_id : Nat
  start_time : Int
  duration_mins : Nat
deriving DecidableEq, Repr

/-- A sequence of booking operations against the appointment table:
successful bookings commit, rejected ones leave the table unchanged. -/
def applyBookings (reqs : List BookRequest) (appointments : List Appointment) :
    List Appointment :=
  match reqs with
  | [] => appointments
  | r :: rest =>
    match createAppointment appointments r.newId r.patient_id r.dentist_id
        r.start_time r.duration_mins with
    | Except.ok appts2 => applyBookings rest appts2
    | Except.error _ => applyBookings rest appointments

/-- C1 counterexample: from an empty table, booking dentist 5 at minute 0
for 60 minutes succeeds, and then booking the same dentist at minute 30 for
30 minutes also succeeds — the interval-overlap predicate is not
re-validated (only start-time equality is), and the resulting table holds
two overlapping non-cancelled appointments, violating the invariant. -/
theorem noOverlapInvariant_counterexample :
    createAppointment [] 1 10 5 0 60 =
      Except.ok [⟨1, 10, 5, 0, 60, AppointmentStatus.BOOKED⟩] ∧
    createAppointment [⟨1, 10, 5, 0, 60, AppointmentStatus.BOOKED⟩] 2 11 5 30 30 =
      Except.ok [⟨1, 10, 5, 0, 60, AppointmentStatus.BOOKED⟩,
        ⟨2, 11, 5, 30, 30, AppointmentStatus.BOOKED⟩] ∧
    intervalsOverlap 0 60 30 30 ∧
    ¬ noOverlapInvariant [⟨1, 10, 5, 0, 60, AppointmentStatus.BOOKED⟩,
        ⟨2, 11, 5, 30, 30, AppointmentStatus.BOOKED⟩] := by
  refine ⟨by rfl, by rfl, by decide, ?_⟩
  intro h
  rw [noOverlapInvariant] at h
  exact absurd h (by decide)

/-- A successful insert keeps start times of non-cancelled same-dentist
appointments distinct. -/
theorem createAppointment_preserves_distinctStarts
    (appointments : List Appointment) (i p d : Nat) (s : Int) (dur : Nat)
    (h : distinctStarts appointments) (appointments2 : List Appointment)
    (hok : createAppointment appointments i p d s dur = Except.ok appointments2) :
    distinctStarts appointments2 := by
  simp only [createAppointment] at hok
  split_ifs at hok with hE
  · rw [List.isEmpty_iff] at hE
    have hall := List.filter_eq_nil_iff.1 hE
    cases hok
    rw [distinctStarts, List.pairwise_append]
    refine ⟨h, List.pairwise_singleton _ _, ?_⟩
    intro a ha b hb
    rw [List.mem_singleton] at hb
    subst hb
    intro hd hac _ heq
    have hd' : a.dentist_id = d := by simpa using hd
    have hs' : a.start_time = s := by simpa using heq
    exact hall a ha (by simp [hd', hs', hac])

/-- Any sequence of bookings preserves `distinctStarts`. -/
theorem applyBookings_distinctStarts (reqs : List BookRequest) :
    ∀ appointments, distinctStarts appointments →
      distinctStarts (applyBookings reqs appointments) := by
  induction reqs with
  | nil => intro appointments h; exact h
  | cons r rest ih =>
    intro appointments h
    simp only [applyBookings]
    cases hc : createAppointment appointments r.newId r.patient_id r.dentist_id
        r.start_time r.duration_mins with
    | ok l =>
      exact ih l (createAppointment_preserves_distinctStarts
        appointments r.newId r.patient_id r.dentist_id r.start_time
        r.duration_mins h l hc)
    | error e => exact ih appointments h

/-- C1 amended: after any sequence of booking operations starting from an
empty table, no two non-cancelled appointments of the same practitioner
share a start time, and a request whose start time *equals* that of an
existing non-cancelled appointment of the practitioner is rejected with
SlotNoLongerAvailable and inserts nothing; booking does not re-validate the
interval-overlap predicate, so overlapping requests with distinct start
times are accepted (see the counterexample). -/
theorem bookingConflict_amended :
    (∀ reqs : List BookRequest, distinctStarts (applyBookings reqs [])) ∧
    (∀ (appointments : List Appointment) (i p d : Nat) (s : Int) (dur : Nat),
      (∃ a ∈ appointments, a.dentist_id = d ∧ a.start_time = s ∧
        a.status ≠ AppointmentStatus.CANCELLED) →
      createAppointment appointments i p d s dur =
        Except.error BookError.slotNoLongerAvailable) := by
  constructor
  · intro reqs
    exact applyBookings_distinctStarts reqs [] (List.Pairwise.nil)
  · rintro appointments i p d s dur ⟨a, ha, hd, hs, hst⟩
    simp only [createAppointment]
    have hmem : a ∈ appointments.filter (fun a =>
        a.dentist_id == d && decide (a.start_time = s) &&
          !(a.status == AppointmentStatus.CANCELLED)) :=
      List.mem_filter.2 ⟨ha, by simp [hd, hs, hst]⟩
    rw [if_neg]
    intro hE
    rw [List.isEmpty_iff] at hE
    rw [hE] at hmem
    simp at hmem

/-- Witness for `bookingConflict_amended`: the two-booking sequence of the
counterexample keeps starts distinct, and re-booking an already taken start
time (dentist 5, minute 0) is rejected. -/
theorem bookingConflict_amended_witness :
    distinctStarts (applyBookings
      [⟨1, 10, 5, 0, 60⟩, ⟨2, 11, 5, 30, 30⟩] []) ∧
    createAppointment [⟨1, 10, 5, 0, 60, AppointmentStatus.BOOKED⟩] 2 11 5 0 30 =
      Except.error BookError.slotNoLongerAvailable :=
  ⟨bookingConflict_amended.1 [⟨1, 10, 5, 0, 60⟩, ⟨2, 11, 5, 30, 30⟩],
    bookingConflict_amended.2 [⟨1, 10, 5, 0, 60, AppointmentStatus.BOOKED⟩]
      2 11 5 0 30
      ⟨⟨1, 10, 5, 0, 60, AppointmentStatus.BOOKED⟩, by decide, by decide,
        by decide, by decide⟩⟩

/-- `t.replace(hour=h, minute=m, second=0, microsecond=0)` on a minute
instant (day length 1440). -/
def replaceTime (t : Nat) (hour minute : Nat) : Nat :=
  t / 1440 * 1440 + hour * 60 + minute

/-- Python's `datetime.weekday()` on a minute instant; the epoch (minute 0)
is fixed at a Monday 00:00, so Monday = 0 … Sunday = 6. -/
def weekday (t : Nat) : Nat := t / 1440 % 7

/-- A slot as returned by `get_available_slots` (routes/appointments.py):
practitioner, start and end instants. -/
structure Slot where
  dentist_id : Nat
  start_time : Nat
  end_time : Nat
deriving DecidableEq, Repr

/-- The inner conflict loop of the slot generator (routes/appointments.py,
lines 155-165): the candidate `[current, slotEnd)` is available for the
dentist iff no listed appointment of that dentist overlaps it. -/
def slotAvailable (dentistId : Nat) (current slotEnd : Nat)
    (appointments : List Appointment) : Bool :=
  appointments.all (fun a =>
    !(a.dentist_id == dentistId) ||
      (decide ((slotEnd : Int) ≤ a.start_time) ||
        decide (a.start_time + (a.duration_mins : Int) ≤ (current : Int))))

/-- The slot-generation `while` loop of `get_available_slots`
(routes/appointments.py, lines 141-179), with an explicit fuel for
termination: while `current_time ≤ end_time`, skip weekend days (jump 24 h
ahead and reset to 9:00), otherwise emit one slot of `procedureDuration`
minutes per dentist whose calendar is free at `current_time`, then stride by
`procedureDuration`. -/
def generateSlots (dentists : List Nat) (appointments : List Appointment)
    (procedureDuration : Nat) : Nat → Nat → Nat → List Slot
  | 0, _, _ => []
  | fuel + 1, currentTime, endTime =>
    if currentTime ≤ endTime then
      if weekday currentTime ≥ 5 then
        generateSlots dentists appointments procedureDuration fuel
          (replaceTime (currentTime + 1440) 9 0) endTime
      else
        (dentists.filterMap (fun d =>
          if slotAvailable d currentTime (currentTime + procedureDuration)
              appointments then
            some ⟨d, currentTime, currentTime + procedureDuration⟩
          else none)) ++
        generateSlots dentists appointments procedureDuration fuel
          (currentTime + procedureDuration) endTime
    else []

/-- `get_available_slots` slot computation after the lookups: the loop runs
from 9:00 of the window's start date to 17:00 of its end date.  The fuel
`endTime + 1` covers every iteration, as each iteration strictly advances
`current_time` (for a positive stride). -/
def getAvailableSlots (dentists : List Nat) (appointments : List Appointment)
    (procedureDuration : Nat) (startDate endDate : Nat) : List Slot :=
  let currentTime := replaceTime startDate 9 0
  let endTime := replaceTime endDate 17 0
  generateSlots dentists appointments procedureDuration (endTime + 1)
    currentTime endTime

/-- Errors surfaced by the availability route. -/
inductive ApiError where
  | invalidArgument
  | notFound
deriving DecidableEq, Repr

/-- The `date_range` handling of `get_available_slots`
(routes/appointments.py, lines 85-94): an unparseable range (modelled as
`none`) yields HTTP 400 InvalidArgument; any successfully parsed pair —
including one whose end precedes its start — proceeds to slot generation
with no further validation. -/
def getAvailableSlotsRoute (parsedRange : Option (Nat × Nat))
    (dentists : List Nat) (appointments : List Appointment)
    (procedureDuration : Nat) : Except ApiError (List Slot) :=
  match parsedRange with
  | none => Except.error ApiError.invalidArgument
  | some (startDate, endDate) =>
    Except.ok (getAvailableSlots dentists appointments procedureDuration
      startDate endDate)

/-- Every slot the generator emits starts on a weekday (the weekend branch
emits nothing) and spans exactly the procedure duration. -/
theorem generateSlots_weekday (dentists : List Nat)
    (appointments : List Appointment) (procedureDuration : Nat) :
    ∀ (fuel currentTime endTime : Nat) (s : Slot),
      s ∈ generateSlots dentists appointments procedureDuration fuel
        currentTime endTime →
      weekday s.start_time < 5 ∧ s.end_time = s.start_time + procedureDuration := by
  intro fuel
  induction fuel with
  | zero => intro currentTime endTime s hs; simp [generateSlots] at hs
  | succ n ih =>
    intro currentTime endTime s hs
    simp only [generateSlots] at hs
    split_ifs at hs with hle hwk
    · exact ih _ _ s hs
    · rw [List.mem_append] at hs
      rcases hs with hs | hs
      · rcases List.mem_filterMap.1 hs with ⟨d, _, hd⟩
        split_ifs at hd
        cases hd
        refine ⟨?_, rfl⟩
        show weekday currentTime < 5
        omega
      · exact ih _ _ s hs
    · simp at hs

/-- C6 counterexample: with one dentist, an empty calendar, a 30-minute
procedure and the single Monday `[0, 0]` as window (minute 0 is a Monday
00:00), the route returns the slot starting at minute 1020 — 17:00, the
closing time — which ends at 17:30, after closing; and with the two-day
window `[0, 1440]` it returns the slot starting at minute 1560 — Tuesday
02:00, before the 9:00 opening.  No comparison against "now" is made
anywhere, so these slots are returned even when they lie in the past. -/
theorem slotWellformedness_counterexample :
    (⟨1, 1020, 1050⟩ : Slot) ∈ getAvailableSlots [1] [] 30 0 0 ∧
    replaceTime 1020 17 0 = 1020 ∧ 1020 < (1050 : Nat) ∧
    (⟨1, 1560, 1590⟩ : Slot) ∈ getAvailableSlots [1] [] 30 0 1440 ∧
    1560 % 1440 = 120 ∧ 120 < 9 * 60 := by
  refine ⟨by decide, by decide, by decide, by decide, by decide, by decide⟩

/-- C6 amended: every slot returned by the availability route starts on an
operating weekday and spans exactly the procedure duration; but the
generator bounds the candidate starts only globally — from 9:00 of the
window's first day to 17:00 of its last — so a slot may end after the
17:00 closing time, may start before the 9:00 opening on days after the
first, and no slot is ever filtered for being in the past. -/
theorem slotWeekday_amended (dentists : List Nat)
    (appointments : List Appointment) (procedureDuration : Nat)
    (startDate endDate : Nat) (s : Slot)
    (hs : s ∈ getAvailableSlots dentists appointments procedureDuration
      startDate endDate) :
    weekday s.start_time < 5 ∧ s.end_time = s.start_time + procedureDuration :=
  generateSlots_weekday dentists appointments procedureDuration _ _ _ s hs

/-- Witness for `slotWeekday_amended` at the Monday 9:00 slot. -/
theorem slotWeekday_amended_witness :
    weekday (⟨1, 540, 570⟩ : Slot).start_time < 5 ∧
    (⟨1, 540, 570⟩ : Slot).end_time = (⟨1, 540, 570⟩ : Slot).start_time + 30 :=
  slotWeekday_amended [1] [] 30 0 0 ⟨1, 540, 570⟩ (by decide)

/-- C7 counterexample: the window `600/480` — end strictly before start —
is not rejected: the route returns HTTP 200 with a slot list, and (both
bounds falling on the same Monday) that list holds 17 slots. -/
theorem invalidWindow_counterexample :
    (480 : Nat) < 600 ∧
    getAvailableSlotsRoute (some (600, 480)) [1] [] 30 ≠
      Except.error ApiError.invalidArgument ∧
    (getAvailableSlotsRoute (some (600, 480)) [1] [] 30).toOption.map
      List.length = some 17 := by
  refine ⟨by decide, fun h => Except.noConfusion h, by decide⟩

/-- C7 amended: the route raises InvalidArgument exactly for unparseable
window bounds; a parsed window — in particular one whose end precedes its
start — is never rejected and always yields a slot list. -/
theorem invalidWindow_amended (dentists : List Nat)
    (appointments : List Appointment) (procedureDuration : Nat) :
    getAvailableSlotsRoute none dentists appointments procedureDuration =
      Except.error ApiError.invalidArgument ∧
    ∀ startDate endDate : Nat,
      getAvailableSlotsRoute (some (startDate, endDate)) dentists appointments
          procedureDuration =
        Except.ok (getAvailableSlots dentists appointments procedureDuration
          startDate endDate) :=
  ⟨rfl, fun _ _ => rfl⟩

/-- If the computed move score exceeds 70, the recommendation of
`calculate_move_score_heuristic` is MOVE. -/
theorem calcMoveScore_rec_move (cur new ltv : ℚ) (days : ℤ)
    (h : 70 < (calculateMoveScoreHeuristic cur new ltv days).1) :
    (calculateMoveScoreHeuristic cur new ltv days).2.1 = "MOVE" := by
  simp only [calculateMoveScoreHeuristic] at h ⊢
  split_ifs at h ⊢ <;> simp_all

/-- The appointment data the day optimizer consumes
(routes/heuristics.py `optimize_day`): the patient's `ltv_score` (0.0 when
the patient row is missing) is inlined from the per-appointment lookup. -/
structure OptAppt where
  id : Nat
  dentist_id : Nat
  start_time : Int
  status : AppointmentStatus
  estimated_value : ℚ
  patient_ltv : ℚ
deriving DecidableEq, Repr

/-- A procedure catalog entry as the optimizer reads it. -/
structure Procedure where
  code : Nat
  base_value : ℚ
deriving DecidableEq, Repr

/-- A `MoveSuggestion` (routes/heuristics.py, lines 41-48); the
`target_slot` string `f"{dentist_id}-{start_time}"` is kept as the pair it
denotes. -/
structure MoveSuggestion where
  source_appointment_id : Nat
  target_dentist : Nat
  target_start : Int
  move_score : ℤ
  incentive_needed : String
  potential_revenue_gain : ℚ
deriving DecidableEq, Repr

/-- Stable insertion into a list sorted by descending `move_score`
(the later element goes after earlier ones of equal score, as Python's
stable `list.sort(key=..., reverse=True)` keeps arrival order on ties). -/
def insertSuggestion (s : MoveSuggestion) :
    List MoveSuggestion → List MoveSuggestion
  | [] => [s]
  | t :: ts =>
    if s.move_score ≥ t.move_score then s :: t :: ts
    else t :: insertSuggestion s ts

/-- `suggestions.sort(key=lambda s: s.move_score, reverse=True)`. -/
def sortSuggestionsDesc : List MoveSuggestion → List MoveSuggestion
  | [] => []
  | s :: rest => insertSuggestion s (sortSuggestionsDesc rest)

/-- `optimize_day` (routes/heuristics.py, lines 200-261): keep the BOOKED
appointments of the day, pair each with every catalog procedure whose
`base_value > 1.5 × estimated_value`, score the move, keep it when the
recommendation is MOVE with score above 70, and sort descending by score. -/
def optimizeDay (appointments : List OptAppt) (procedures : List Procedure)
    (dayStart now : Int) : List MoveSuggestion :=
  let dayAppointments := appointments.filter (fun a =>
    decide (dayStart ≤ a.start_time) && decide (a.start_time < dayStart + 1440) &&
      a.status == AppointmentStatus.BOOKED)
  let suggestions := dayAppointments.flatMap (fun appt =>
    procedures.filterMap (fun procedure =>
      if decide (appt.estimated_value * (3 / 2) < procedure.base_value) then
        let daysUntil := pyMax 0 ((appt.start_time - now).fdiv 1440)
        let r := calculateMoveScoreHeuristic appt.estimated_value
          procedure.base_value appt.patient_ltv daysUntil
        if r.2.1 == "MOVE" && decide (r.1 > 70) then
          some ⟨appt.id, appt.dentist_id, appt.start_time, r.1, r.2.2,
            procedure.base_value - appt.estimated_value⟩
        else none
      else none))
  sortSuggestionsDesc suggestions

/-- The optimizer's output order: descending move score. -/
def sortedDescByScore (l : List MoveSuggestion) : Prop :=
  l.Pairwise (fun a b => b.move_score ≤ a.move_score)

/-- Members of an insertion. -/
theorem mem_insertSuggestion (s x : MoveSuggestion) (l : List MoveSuggestion)
    (h : x ∈ insertSuggestion s l) : x = s ∨ x ∈ l := by
  induction l with
  | nil => simpa [insertSuggestion] using h
  | cons t ts ih =>
    simp only [insertSuggestion] at h
    split_ifs at h
    · rw [List.mem_cons] at h
      rcases h with h | h
      · exact Or.inl h
      · exact Or.inr h
    · rw [List.mem_cons] at h
      rcases h with h | h
      · exact Or.inr (by simp [h])
      · rcases ih h with h | h
        · exact Or.inl h
        · exact Or.inr (by simp [h])

/-- Insertion preserves descending sortedness. -/
theorem insertSuggestion_sorted (s : MoveSuggestion) (l : List MoveSuggestion)
    (h : sortedDescByScore l) : sortedDescByScore (insertSuggestion s l) := by
  induction l with
  | nil => simp [insertSuggestion, sortedDescByScore]
  | cons t ts ih =>
    simp only [sortedDescByScore, List.pairwise_cons] at h
    simp only [insertSuggestion]
    split_ifs with hge
    · simp only [sortedDescByScore, List.pairwise_cons]
      refine ⟨?_, ?_, h.2⟩
      · intro b hb
        rw [List.mem_cons] at hb
        rcases hb with hb | hb
        · subst hb; omega
        · have := h.1 b hb
          omega
      · exact h.1
    · simp only [sortedDescByScore, List.pairwise_cons]
      constructor
      · intro b hb
        rcases mem_insertSuggestion s b ts hb with hb | hb
        · subst hb; omega
        · exact h.1 b hb
      · exact ih h.2

/-- The sort returns a descending-by-score list. -/
theorem sortSuggestionsDesc_sorted (l : List MoveSuggestion) :
    sortedDescByScore (sortSuggestionsDesc l) := by
  induction l with
  | nil => simp [sortSuggestionsDesc, sortedDescByScore]
  | cons s rest ih => exact insertSuggestion_sorted s _ ih

/-- C8: a day with one BOOKED appointment valued 150: a catalog holding only
a 200-valued procedure (below the 1.5× materiality threshold) produces no
suggestion; adding a 1200-valued procedure produces exactly one suggestion
for that appointment whenever the computed move score exceeds 70; and every
optimizer output is sorted descending by move score. -/
theorem dayOptimizer_materiality (d : Nat) (ltv : ℚ) (start dayStart now : Int)
    (hin1 : dayStart ≤ start) (hin2 : start < dayStart + 1440) :
    optimizeDay [⟨1, d, start, AppointmentStatus.BOOKED, 150, ltv⟩]
      [⟨10, 200⟩] dayStart now = [] ∧
    (70 < (calculateMoveScoreHeuristic 150 1200 ltv
        (pyMax 0 ((start - now).fdiv 1440))).1 →
      optimizeDay [⟨1, d, start, AppointmentStatus.BOOKED, 150, ltv⟩]
          [⟨10, 200⟩, ⟨11, 1200⟩] dayStart now =
        [⟨1, d, start,
          (calculateMoveScoreHeuristic 150 1200 ltv
            (pyMax 0 ((start - now).fdiv 1440))).1,
          (calculateMoveScoreHeuristic 150 1200 ltv
            (pyMax 0 ((start - now).fdiv 1440))).2.2, 1050⟩]) ∧
    (∀ (appointments : List OptAppt) (procedures : List Procedure)
        (ds n : Int),
      sortedDescByScore (optimizeDay appointments procedures ds n)) := by
  refine ⟨?_, ?_, fun appointments procedures ds n =>
    sortSuggestionsDesc_sorted _⟩
  · simp [optimizeDay, hin1, hin2, sortSuggestionsDesc,
      show ¬((150 : ℚ) * (3 / 2) < 200) by norm_num]
  · intro hscore
    have hrec := calcMoveScore_rec_move 150 1200 ltv
      (pyMax 0 ((start - now).fdiv 1440)) hscore
    simp [optimizeDay, hin1, hin2, sortSuggestionsDesc, insertSuggestion,
      show ¬((150 : ℚ) * (3 / 2) < 200) by norm_num,
      show ((150 : ℚ) * (3 / 2) < 1200) by norm_num,
      hrec, hscore,
      show (1200 : ℚ) - 150 = 1050 by norm_num]

/-- Witness for `dayOptimizer_materiality`: one appointment (value 150) on
day 3, catalog value 200 → no suggestion; adding 1200 (score 100 > 70) →
exactly the one suggestion. -/
theorem dayOptimizer_materiality_witness :
    optimizeDay [⟨1, 7, 4400, AppointmentStatus.BOOKED, 150, 0⟩]
      [⟨10, 200⟩] 4320 0 = [] ∧
    optimizeDay [⟨1, 7, 4400, AppointmentStatus.BOOKED, 150, 0⟩]
        [⟨10, 200⟩, ⟨11, 1200⟩] 4320 0 =
      [⟨1, 7, 4400,
        (calculateMoveScoreHeuristic 150 1200 0
          (pyMax 0 ((4400 - 0 : Int).fdiv 1440))).1,
        (calculateMoveScoreHeuristic 150 1200 0
          (pyMax 0 ((4400 - 0 : Int).fdiv 1440))).2.2, 1050⟩] := by
  have h := dayOptimizer_materiality 7 0 4400 4320 0 (by decide) (by decide)
  exact ⟨h.1, h.2.1 (by with_unfolding_all decide)⟩

/-!
Slot identifiers.  `get_available_slots` builds
`id = f"{dentist.id}@{current_time.isoformat()}"` (routes/appointments.py,
line 170) and `create_appointment` parses it back with
`slot_id.split("@", 1)`, `UUID(...)` and `datetime.fromisoformat(...)`
(lines 246-249).  Strings are modelled as lists of character codes
("-" = 45, "@" = 64, "T" = 84, ":" = 58, digits 48-57, "a"-"f" 97-102).
-/

/-- Lowercase hex digit character of a value below 16. -/
def hexCharCode (d : Nat) : Nat := if d < 10 then 48 + d else 87 + d

/-- Value of a lowercase hex digit character. -/
def hexCharVal (c : Nat) : Nat := if 97 ≤ c then c - 87 else c - 48

/-- Character class accepted by the UUID parser. -/
def isHexCharCode (c : Nat) : Bool := (48 ≤ c && c ≤ 57) || (97 ≤ c && c ≤ 102)

/-- Big-endian base-16 digits, `k` of them. -/
def toHexDigits : Nat → Nat → List Nat
  | _, 0 => []
  | n, k + 1 => n / 16 ^ k :: toHexDigits (n % 16 ^ k) k

/-- `str(uuid.UUID)`: 32 lowercase hex digits in 8-4-4-4-12 groups joined
by "-". -/
def uuidStr (n : Nat) : List Nat :=
  let ds := (toHexDigits n 32).map hexCharCode
  ds.take 8 ++ [45] ++ (ds.drop 8).take 4 ++ [45] ++ (ds.drop 12).take 4 ++
    [45] ++ (ds.drop 16).take 4 ++ [45] ++ ds.drop 20

/-- `uuid.UUID(s)`: remove the dashes, require 32 hex characters, read the
value. -/
def parseUUID (s : List Nat) : Option Nat :=
  let t := s.filter (fun c => !(c == 45))
  if t.length = 32 && t.all isHexCharCode then
    some (t.foldl (fun acc c => acc * 16 + hexCharVal c) 0)
  else none

theorem toHexDigits_length : ∀ (k n : Nat), (toHexDigits n k).length = k := by
  intro k
  induction k with
  | zero => intro n; rfl
  | succ m ih => intro n; simp [toHexDigits, ih]

theorem toHexDigits_lt : ∀ (k n : Nat), n < 16 ^ k →
    ∀ d ∈ toHexDigits n k, d < 16 := by
  intro k
  induction k with
  | zero => intro n _ d hd; simp [toHexDigits] at hd
  | succ m ih =>
    intro n hn d hd
    rw [toHexDigits, List.mem_cons] at hd
    rcases hd with hd | hd
    · subst hd
      have h16 : 16 ^ (m + 1) = 16 ^ m * 16 := by ring
      exact Nat.div_lt_of_lt_mul (by omega)
    · exact ih (n % 16 ^ m) (Nat.mod_lt n (Nat.pos_pow_of_pos m (by omega))) d hd

theorem foldl_toHexDigits : ∀ (k n acc : Nat), n < 16 ^ k →
    (toHexDigits n k).foldl (fun a d => a * 16 + d) acc = acc * 16 ^ k + n := by
  intro k
  induction k with
  | zero => intro n acc hn; simp [toHexDigits]; omega
  | succ m ih =>
    intro n acc hn
    rw [toHexDigits, List.foldl_cons,
      ih (n % 16 ^ m) _ (Nat.mod_lt n (Nat.pos_pow_of_pos m (by omega)))]
    have hdm := Nat.div_add_mod n (16 ^ m)
    have h16 : 16 ^ (m + 1) = 16 ^ m * 16 := by ring
    calc (acc * 16 + n / 16 ^ m) * 16 ^ m + n % 16 ^ m
        = acc * (16 ^ m * 16) + (16 ^ m * (n / 16 ^ m) + n % 16 ^ m) := by ring
      _ = acc * 16 ^ (m + 1) + n := by rw [Nat.mul_comm (16 ^ m), hdm, h16]; ring

theorem hexCharVal_hexCharCode (d : Nat) (h : d < 16) :
    hexCharVal (hexCharCode d) = d := by
  unfold hexCharVal hexCharCode
  split_ifs <;> omega

theorem hexCharCode_range (d : Nat) (h : d < 16) :
    isHexCharCode (hexCharCode d) = true ∧ hexCharCode d ≠ 45 ∧
      hexCharCode d ≠ 64 := by
  unfold isHexCharCode hexCharCode
  split_ifs <;> refine ⟨by simp; omega, by omega, by omega⟩

theorem parseUUID_uuidStr (n : Nat) (h : n < 2 ^ 128) :
    parseUUID (uuidStr n) = some n := by
  have h16 : n < 16 ^ 32 := by
    have he : (16 : Nat) ^ 32 = 2 ^ 128 := by norm_num
    omega
  have hdig : ∀ c ∈ (toHexDigits n 32).map hexCharCode,
      isHexCharCode c = true ∧ c ≠ 45 ∧ c ≠ 64 := by
    intro c hc
    rcases List.mem_map.1 hc with ⟨d, hd, rfl⟩
    exact hexCharCode_range d (toHexDigits_lt 32 n h16 d hd)
  have hseg : ∀ l : List Nat, (∀ c ∈ l, c ≠ 45) →
      l.filter (fun c => !(c == 45)) = l := by
    intro l hl
    refine List.filter_eq_self.2 ?_
    intro c hc
    simpa using hl c hc
  have hne : ∀ c ∈ (toHexDigits n 32).map hexCharCode, c ≠ 45 :=
    fun c hc => (hdig c hc).2.1
  simp only [parseUUID, uuidStr]
  have hfil : (((toHexDigits n 32).map hexCharCode).take 8 ++ [45] ++
      (((toHexDigits n 32).map hexCharCode).drop 8).take 4 ++ [45] ++
      (((toHexDigits n 32).map hexCharCode).drop 12).take 4 ++ [45] ++
      (((toHexDigits n 32).map hexCharCode).drop 16).take 4 ++ [45] ++
      ((toHexDigits n 32).map hexCharCode).drop 20).filter
        (fun c => !(c == 45)) = (toHexDigits n 32).map hexCharCode := by
    simp only [List.filter_append]
    rw [hseg (((toHexDigits n 32).map hexCharCode).take 8)
        (fun c hc => hne c (List.mem_of_mem_take hc)),
      hseg ((((toHexDigits n 32).map hexCharCode).drop 8).take 4)
        (fun c hc => hne c (List.mem_of_mem_drop (List.mem_of_mem_take hc))),
      hseg ((((toHexDigits n 32).map hexCharCode).drop 12).take 4)
        (fun c hc => hne c (List.mem_of_mem_drop (List.mem_of_mem_take hc))),
      hseg ((((toHexDigits n 32).map hexCharCode).drop 16).take 4)
        (fun c hc => hne c (List.mem_of_mem_drop (List.mem_of_mem_take hc))),
      hseg (((toHexDigits n 32).map hexCharCode).drop 20)
        (fun c hc => hne c (List.mem_of_mem_drop hc))]
    simp only [show ([45] : List Nat).filter (fun c => !(c == 45)) = [] from
      rfl, List.append_nil, List.nil_append, List.append_assoc]
    have e1 : (((toHexDigits n 32).map hexCharCode).drop 16).take 4 ++
        ((toHexDigits n 32).map hexCharCode).drop 20 =
        ((toHexDigits n 32).map hexCharCode).drop 16 := by
      have hd : (((toHexDigits n 32).map hexCharCode).drop 16).drop 4 =
          ((toHexDigits n 32).map hexCharCode).drop 20 := by
        rw [List.drop_drop]
      rw [← hd, List.take_append_drop]
    rw [e1]
    have e2 : (((toHexDigits n 32).map hexCharCode).drop 12).take 4 ++
        ((toHexDigits n 32).map hexCharCode).drop 16 =
        ((toHexDigits n 32).map hexCharCode).drop 12 := by
      have hd : (((toHexDigits n 32).map hexCharCode).drop 12).drop 4 =
          ((toHexDigits n 32).map hexCharCode).drop 16 := by
        rw [List.drop_drop]
      rw [← hd, List.take_append_drop]
    rw [e2]
    have e3 : (((toHexDigits n 32).map hexCharCode).drop 8).take 4 ++
        ((toHexDigits n 32).map hexCharCode).drop 12 =
        ((toHexDigits n 32).map hexCharCode).drop 8 := by
      have hd : (((toHexDigits n 32).map hexCharCode).drop 8).drop 4 =
          ((toHexDigits n 32).map hexCharCode).drop 12 := by
        rw [List.drop_drop]
      rw [← hd, List.take_append_drop]
    rw [e3, List.take_append_drop]
  simp only [hfil]
  have hlen : ((toHexDigits n 32).map hexCharCode).length = 32 := by
    simp [toHexDigits_length]
  have hall : ((toHexDigits n 32).map hexCharCode).all isHexCharCode = true :=
    List.all_eq_true.2 (fun c hc => (hdig c hc).1)
  rw [if_pos (by simp [hlen, hall])]
  congr 1
  rw [List.foldl_map]
  rw [List.foldl_ext (fun acc d => acc * 16 + hexCharVal (hexCharCode d))
    (fun acc d => acc * 16 + d) 0
    (fun a d hd => by
      simp [hexCharVal_hexCharCode d (toHexDigits_lt 32 n h16 d hd)])]
  rw [foldl_toHexDigits 32 n 0 h16]
  omega

/-- A naive (timezone-free) Python datetime with zero microseconds, as the
slot generator produces. -/
structure PyDateTime where
  year : Nat
  month : Nat
  day : Nat
  hour : Nat
  minute : Nat
  second : Nat
deriving DecidableEq, Repr

/-- Two-digit zero-padded decimal rendering. -/
def pad2 (n : Nat) : List Nat := [48 + n / 10 % 10, 48 + n % 10]

/-- Four-digit zero-padded decimal rendering. -/
def pad4 (n : Nat) : List Nat := pad2 (n / 100) ++ pad2 (n % 100)

/-- `datetime.isoformat()` for a zero-microsecond naive datetime:
`YYYY-MM-DDTHH:MM:SS`. -/
def isoformat (t : PyDateTime) : List Nat :=
  pad4 t.year ++ [45] ++ pad2 t.month ++ [45] ++ pad2 t.day ++ [84] ++
    pad2 t.hour ++ [58] ++ pad2 t.minute ++ [58] ++ pad2 t.second

/-- One decimal digit, or failure. -/
def readDigit (c : Nat) : Option Nat :=
  if 48 ≤ c ∧ c ≤ 57 then some (c - 48) else none

/-- Two decimal digits and the rest of the input. -/
def read2 : List Nat → Option (Nat × List Nat)
  | a :: b :: rest =>
    match readDigit a, readDigit b with
    | some x, some y => some (x * 10 + y, rest)
    | _, _ => none
  | _ => none

/-- Four decimal digits and the rest of the input. -/
def read4 (s : List Nat) : Option (Nat × List Nat) := do
  let (a, s) ← read2 s
  let (b, s) ← read2 s
  pure (a * 100 + b, s)

/-- One expected separator character. -/
def expectChar (c : Nat) : List Nat → Option (List Nat)
  | x :: rest => if x = c then some rest else none
  | [] => none

/-- `datetime.fromisoformat` on the `YYYY-MM-DDTHH:MM:SS` shape: positional
parse with calendar-range validation. -/
def fromisoformat (s : List Nat) : Option PyDateTime := do
  let (y, s) ← read4 s
  let s ← expectChar 45 s
  let (m, s) ← read2 s
  let s ← expectChar 45 s
  let (d, s) ← read2 s
  let s ← expectChar 84 s
  let (h, s) ← read2 s
  let s ← expectChar 58 s
  let (mi, s) ← read2 s
  let s ← expectChar 58 s
  let (sec, s) ← read2 s
  if s = [] ∧ 1 ≤ y ∧ y ≤ 9999 ∧ 1 ≤ m ∧ m ≤ 12 ∧ 1 ≤ d ∧ d ≤ 31 ∧
      h ≤ 23 ∧ mi ≤ 59 ∧ sec ≤ 59 then
    pure ⟨y, m, d, h, mi, sec⟩
  else none

theorem read2_pad2 (n : Nat) (rest : List Nat) :
    read2 (pad2 n ++ rest) = some (n / 10 % 10 * 10 + n % 10, rest) := by
  simp only [pad2, List.cons_append, List.nil_append, read2, readDigit]
  rw [if_pos (by omega), if_pos (by omega)]
  simp only [Option.some.injEq, Prod.mk.injEq]
  refine ⟨by omega, trivial⟩

theorem read2_pad2_eta (n : Nat) (rest : List Nat) (h : n < 100) :
    read2 (pad2 n ++ rest) = some (n, rest) := by
  rw [read2_pad2]
  simp only [Option.some.injEq, Prod.mk.injEq]
  refine ⟨by omega, trivial⟩

theorem expectChar_cons_self (c : Nat) (rest : List Nat) :
    expectChar c (c :: rest) = some rest := by
  simp [expectChar]

theorem read2_pad2_nil (n : Nat) :
    read2 (pad2 n) = some (n / 10 % 10 * 10 + n % 10, []) := by
  have := read2_pad2 n []
  rwa [List.append_nil] at this

set_option maxHeartbeats 1000000 in
theorem fromisoformat_isoformat (y m d h mi sec : Nat)
    (hy1 : 1 ≤ y) (hy : y ≤ 9999) (hm1 : 1 ≤ m) (hm : m ≤ 12)
    (hd1 : 1 ≤ d) (hd : d ≤ 31) (hh : h ≤ 23) (hmi : mi ≤ 59)
    (hs : sec ≤ 59) :
    fromisoformat (isoformat ⟨y, m, d, h, mi, sec⟩) =
      some ⟨y, m, d, h, mi, sec⟩ := by
  simp only [isoformat, pad4, List.append_assoc, List.cons_append,
    List.nil_append]
  simp only [fromisoformat, read4, read2_pad2, read2_pad2_nil, expectChar_cons_self, Option.bind_eq_bind, Option.some_bind, Option.pure_def]
  split_ifs with hc
  · simp only [Option.some.injEq, PyDateTime.mk.injEq]
    omega
  · exfalso
    apply hc
    simp only [true_and, List.nil_eq, and_true]
    omega

/-- The slot identifier `f"{dentist.id}@{current_time.isoformat()}"` built
by `get_available_slots` (routes/appointments.py, line 170). -/
def slotIdStr (dentistUuid : Nat) (startTime : PyDateTime) : List Nat :=
  uuidStr dentistUuid ++ [64] ++ isoformat startTime

/-- Python `s.split(sep, 1)` unpacked into two parts: the text before the
first separator and everything after it; `none` when the separator is
absent (where `dentist_id_str, start_time_str = slot_id.split("@", 1)`
would raise `ValueError`). -/
def splitFirstAt (sep : Nat) : List Nat → Option (List Nat × List Nat)
  | [] => none
  | c :: rest =>
    if c = sep then some ([], rest)
    else (splitFirstAt sep rest).map (fun p => (c :: p.1, p.2))

/-- The slot-identifier parse of `create_appointment`
(routes/appointments.py, lines 246-249): split on the first "@",
`UUID(...)` the left part, `datetime.fromisoformat(...)` the right part. -/
def parseSlotId (s : List Nat) : Option (Nat × PyDateTime) :=
  match splitFirstAt 64 s with
  | none => none
  | some (l, r) =>
    match parseUUID l, fromisoformat r with
    | some u, some t => some (u, t)
    | _, _ => none

theorem splitFirstAt_append (sep : Nat) (a b : List Nat)
    (h : ∀ c ∈ a, c ≠ sep) : splitFirstAt sep (a ++ sep :: b) = some (a, b) := by
  induction a with
  | nil => simp [splitFirstAt]
  | cons x xs ih =>
    have hx : x ≠ sep := h x (by simp)
    simp only [List.cons_append, splitFirstAt, if_neg hx, List.append_eq]
    rw [ih (fun c hc => h c (by simp [hc]))]
    rfl

/-- Every character of a rendered UUID differs from "@" (64). -/
theorem uuidStr_ne_at (n : Nat) (h : n < 2 ^ 128) :
    ∀ c ∈ uuidStr n, c ≠ 64 := by
  have h16 : n < 16 ^ 32 := by
    have he : (16 : Nat) ^ 32 = 2 ^ 128 := by norm_num
    omega
  have hds : ∀ c ∈ (toHexDigits n 32).map hexCharCode, c ≠ 64 := by
    intro c hc
    rcases List.mem_map.1 hc with ⟨d, hd, rfl⟩
    exact (hexCharCode_range d (toHexDigits_lt 32 n h16 d hd)).2.2
  intro c hc
  simp only [uuidStr, List.append_assoc, List.mem_append, List.mem_cons,
    List.mem_singleton, List.not_mem_nil, or_false] at hc
  rcases hc with hc | hc | hc | hc | hc | hc | hc | hc | hc
  · exact hds c (List.mem_of_mem_take hc)
  · omega
  · exact hds c (List.mem_of_mem_drop (List.mem_of_mem_take hc))
  · omega
  · exact hds c (List.mem_of_mem_drop (List.mem_of_mem_take hc))
  · omega
  · exact hds c (List.mem_of_mem_drop (List.mem_of_mem_take hc))
  · omega
  · exact hds c (List.mem_of_mem_drop hc)

/-- C9: parsing a slot identifier built by the availability route recovers
exactly the practitioner UUID value and the start instant used to build it
("@" cannot occur in either component). -/
theorem slotId_roundTrip (dentistUuid : Nat) (hu : dentistUuid < 2 ^ 128)
    (y m d h mi sec : Nat)
    (hy1 : 1 ≤ y) (hy : y ≤ 9999) (hm1 : 1 ≤ m) (hm : m ≤ 12)
    (hd1 : 1 ≤ d) (hd : d ≤ 31) (hh : h ≤ 23) (hmi : mi ≤ 59)
    (hs : sec ≤ 59) :
    parseSlotId (slotIdStr dentistUuid ⟨y, m, d, h, mi, sec⟩) =
      some (dentistUuid, ⟨y, m, d, h, mi, sec⟩) := by
  have hsplit : splitFirstAt 64 (uuidStr dentistUuid ++ 64 ::
      isoformat ⟨y, m, d, h, mi, sec⟩) =
      some (uuidStr dentistUuid, isoformat ⟨y, m, d, h, mi, sec⟩) :=
    splitFirstAt_append 64 _ _ (uuidStr_ne_at dentistUuid hu)
  simp only [parseSlotId, slotIdStr, List.append_assoc, List.singleton_append,
    List.cons_append, List.nil_append]
  rw [hsplit]
  simp only [parseUUID_uuidStr dentistUuid hu,
    fromisoformat_isoformat y m d h mi sec hy1 hy hm1 hm hd1 hd hh hmi hs]

/-- Witness for `slotId_roundTrip`: UUID value 3735928559 and start
2025-01-15T10:00:00. -/
theorem slotId_roundTrip_witness :
    parseSlotId (slotIdStr 3735928559 ⟨2025, 1, 15, 10, 0, 0⟩) =
      some (3735928559, ⟨2025, 1, 15, 10, 0, 0⟩) :=
  slotId_roundTrip 3735928559 (by norm_num) 2025 1 15 10 0 0
    (by norm_num) (by norm_num) (by norm_num) (by norm_num) (by norm_num)
    (by norm_num) (by norm_num) (by norm_num) (by norm_num)
